import Mathlib

set_option maxRecDepth 8000

/-
Verification of the cat-gpt Slack bot core against its specification.

The development shallowly embeds the Rust sources:
  * src/slack_post_handler/slack_message.rs   (message classifier)
  * src/slack_post_handler/handle_request.rs  (context resolver, finalization)
  * src/slack_post_handler/api_client.rs      (completion-response classification)
  * src/openai/handle_stream_response.rs      (stream reassembler)
  * src/openai/chat_gpt_res_body.rs           (streamed delta payloads)

Rust strings of the classifier world are modelled as List Char; the stream
reassembler world is modelled at the byte level (List Nat), because the code
splits network chunks on raw bytes and validates UTF-8 explicitly.
-/

namespace CatGpt

/-- Shorthand: the character list underlying a Lean string literal. -/
def strL (s : String) : List Char := s.data

/-- Model of Rust SharedFile (slack_message.rs lines 21-26). -/
structure SharedFile where
  filetype : List Char
  mimetype : List Char
  url_private : List Char
deriving DecidableEq

/-- Model of Rust SlackMessage (slack_message.rs lines 6-19). -/
structure SlackMessage where
  text : List Char
  thread_ts : Option (List Char)
  type_name : List Char
  subtype : Option (List Char)
  user : List Char
  channel : Option (List Char)
  ts : List Char
  channel_type : Option (List Char)
  files : Option (List SharedFile)
deriving DecidableEq

/-- Rust str::contains with a string pattern: substring test. -/
def containsSub (needle : List Char) : List Char → Bool
  | [] => needle.isPrefixOf []
  | c :: t => needle.isPrefixOf (c :: t) || containsSub needle t

/-- slack_message.rs is_mention_to: text contains the user id. -/
def is_mention_to (m : SlackMessage) (user_id : List Char) : Bool :=
  containsSub user_id m.text

/-- slack_message.rs is_mention_to_other. -/
def is_mention_to_other (m : SlackMessage) (bot_id : List Char) : Bool :=
  !(is_mention_to m bot_id) && containsSub (strL "<@") m.text

/-- slack_message.rs is_in_thread. -/
def is_in_thread (m : SlackMessage) : Bool := m.thread_ts.isSome

/-- slack_message.rs is_direct_message. -/
def is_direct_message (m : SlackMessage) : Bool :=
  m.channel_type == some (strL "im")

/-- slack_message.rs is_from. -/
def is_from (m : SlackMessage) (user_id : List Char) : Bool :=
  m.user == user_id

/-- slack_message.rs reply_required (lines 114-122). -/
def reply_required (m : SlackMessage) (bot_id : List Char) : Bool :=
  (m.type_name == strL "message") &&
  (m.subtype.isNone || m.subtype == some (strL "file_share")) &&
  !(is_from m bot_id)

/-- The code-point ranges of Unicode general category Nd (decimal digits,
Unicode 15.0), the class the regex crate's \d matches in its default
Unicode mode. -/
def ndRanges : List (Nat × Nat) :=
  [(48, 57), (1632, 1641), (1776, 1785), (1984, 1993), (2406, 2415),
   (2534, 2543), (2662, 2671), (2790, 2799), (2918, 2927), (3046, 3055),
   (3174, 3183), (3302, 3311), (3430, 3439), (3558, 3567), (3664, 3673),
   (3792, 3801), (3872, 3881), (4160, 4169), (4240, 4249), (6112, 6121),
   (6160, 6169), (6470, 6479), (6608, 6617), (6784, 6793), (6800, 6809),
   (6992, 7001), (7088, 7097), (7232, 7241), (7248, 7257), (42528, 42537),
   (43216, 43225), (43264, 43273), (43472, 43481), (43504, 43513),
   (43600, 43609), (44016, 44025), (65296, 65305), (66720, 66729),
   (68912, 68921), (69734, 69743), (69872, 69881), (69942, 69951),
   (70096, 70105), (70384, 70393), (70736, 70745), (70864, 70873),
   (71248, 71257), (71360, 71369), (71472, 71481), (71904, 71913),
   (72016, 72025), (72784, 72793), (73040, 73049), (73120, 73129),
   (73552, 73561), (92768, 92777), (92864, 92873), (93008, 93017),
   (120782, 120831), (123200, 123209), (123632, 123641), (124144, 124153),
   (125264, 125273), (130032, 130041)]

/-- One character of the regex \d class: a Unicode decimal digit (Nd). -/
def isUniDigit (c : Char) : Bool :=
  ndRanges.any (fun r => r.1 ≤ c.toNat && c.toNat ≤ r.2)

/-- The capture of the anchored regex past(\d+) used by slack_message.rs:
the maximal nonempty run of Unicode decimal digits if the raw text starts
with "past" followed by at least one such digit, none otherwise. -/
def pastCapture (text : List Char) : Option (List Char) :=
  if (strL "past").isPrefixOf text then
    let ds := (text.drop 4).takeWhile isUniDigit
    if ds.isEmpty then none else some ds
  else none

/-- Rust str::parse::&lt;i32&gt; applied to a captured digit run: Ok with the
value only when the run is nonempty, all its digits are ASCII (parse
rejects every other Unicode digit) and the value fits in i32; Err — none —
otherwise. -/
def parseI32Digits (ds : List Char) : Option Int :=
  if ds.isEmpty then none
  else if ds.all (fun c => c.isDigit) then
    let n : Nat := ds.foldl (fun a c => a * 10 + (c.toNat - 48)) 0
    if n ≤ 2147483647 then some (Int.ofNat n) else none
  else none

/-- slack_message.rs get_limit (lines 74-98), with the environment values
default / max_past passed as arguments. -/
def get_limit (m : SlackMessage) (default max_past : Int) : Int :=
  let past_num : Int :=
    match pastCapture m.text with
    | some ds =>
      match parseI32Digits ds with
      | some num => if num > max_past then max_past else if num < 0 then 0 else num
      | none => default
    | none => default
  past_num + 1

/-- Whether position k in the tail after the opening bracket is a valid end
of the regex match ^<.+> : the k characters matched by .+ contain no newline
and are followed by the two characters of "> ". -/
def mentionOkAt (rest : List Char) (k : Nat) : Bool :=
  ((rest.take k).all (fun c => !(c == '\n'))) && ((rest.drop k).take 2 == ['>', ' '])

/-- Backtracking search of the greedy quantifier .+ : the largest admissible
match length, scanning downwards from n. -/
def findDown (rest : List Char) : Nat → Option Nat
  | 0 => none
  | k + 1 => if mentionOkAt rest (k + 1) then some (k + 1) else findDown rest k

/-- The replacement regex_mention.replace(text, "") for ^<.+> in
slack_message.rs pure_text: greedy leftmost-anchored match removed. -/
def mention_replace (text : List Char) : List Char :=
  match text with
  | '<' :: rest =>
    match findDown rest rest.length with
    | some k => rest.drop (k + 2)
    | none => text
  | _ => text

/-- The replacement for ^o1 in pure_text. -/
def o1_replace (t : List Char) : List Char :=
  if (strL "o1").isPrefixOf t then t.drop 2 else t

/-- The code points with the Unicode White_Space property, the class
char::is_whitespace tests and str::trim removes. -/
def wsCodes : List Nat :=
  [9, 10, 11, 12, 13, 32, 133, 160, 5760, 8192, 8193, 8194, 8195, 8196,
   8197, 8198, 8199, 8200, 8201, 8202, 8232, 8233, 8239, 8287, 12288]

/-- One whitespace character in the sense of str::trim: Unicode
White_Space. -/
def isWsC (c : Char) : Bool := wsCodes.any (fun w => c.toNat == w)

/-- Trailing-whitespace trim. -/
def trimRight (t : List Char) : List Char :=
  (t.reverse.dropWhile isWsC).reverse

/-- Rust str::trim. -/
def trimChars (t : List Char) : List Char :=
  trimRight (t.dropWhile isWsC)

/-- The replacement for ^past(\d+) in pure_text. -/
def command_replace (t : List Char) : List Char :=
  match pastCapture t with
  | some ds => t.drop (4 + ds.length)
  | none => t

/-- slack_message.rs pure_text (lines 61-71): strip the mention, strip ^o1
and trim, then strip the past-directive, in that order. -/
def pure_text (m : SlackMessage) : List Char :=
  command_replace (trimChars (o1_replace (mention_replace m.text)))

/-- A fetch call issued by the context resolver. -/
inductive FetchCall where
  | replies (thread_ts : List Char) (limit : Int)
  | history (limit : Int)
deriving DecidableEq

/-- handle_request.rs fetch_contexts (lines 134-189).  The Slack API client
is abstracted into the two fetcher functions; the environment values are
passed as arguments.  The result records the returned context set together
with the fetch calls issued; none models the panic on a missing channel. -/
def fetch_contexts (m : SlackMessage) (bot_member_id : List Char)
    (default_past_num max_past_num : Int)
    (getReplies : List Char → Int → List SlackMessage)
    (getHistory : Int → List SlackMessage) :
    Option (List SlackMessage × List FetchCall) :=
  match m.channel with
  | none => none
  | some _ =>
    let limit := get_limit m default_past_num max_past_num
    let thread_ts := m.thread_ts.getD []
    if limit < 2 then some ([m], [])
    else if is_direct_message m then
      if is_in_thread m then
        some (getReplies thread_ts limit, [FetchCall.replies thread_ts limit])
      else
        some (getHistory limit, [FetchCall.history limit])
    else if !(is_in_thread m) && is_mention_to m bot_member_id then
      some ([m], [])
    else if is_in_thread m then
      if is_mention_to_other m bot_member_id then some ([], [])
      else
        let rs := getReplies thread_ts limit
        if is_mention_to m bot_member_id || rs.any (fun r => is_from r bot_member_id) then
          some (rs, [FetchCall.replies thread_ts limit])
        else
          some ([], [FetchCall.replies thread_ts limit])
    else some ([], [])

/-- constants.rs USAGE_LIMIT_MESSAGE. -/
def USAGE_LIMIT_MESSAGE : List Char :=
  strL "OpenAIの使用制限に達しましたにゃ。また後でよろしくにゃ。"

/-- constants.rs ERROR_FROM_OPEN_AI_MESSAGE. -/
def ERROR_FROM_OPEN_AI_MESSAGE : List Char :=
  strL "OpenAIからエラーが返ってきましたにゃ。調子が悪い可能性がありますにゃ。めんご。"

/-- Modelled from the spec: the fixed "unsupported format" user-facing
message named INVALID_IMAGE_FORMAT.  The constant is referenced from the
sources but its definition is not present in the constants file under src/;
its concrete text is irrelevant to every property proved here. -/
def INVALID_IMAGE_FORMAT : List Char :=
  strL "the fixed unsupported-image-format message"

/-- api_client.rs ApiClientError (lines 19-33). -/
inductive ApiClientError where
  | statusError (code : Nat) (site : List Char)
  | parseError (msg : List Char)
  | slackPostError (msg : List Char)
  | slackUpdateError (msg : List Char)
  | openaiUsageLimit
  | openaiError (body : List Char)
deriving DecidableEq

/-- The outcome of get_chat_gpt_response: the 200 response body stream, or
the error signalled. -/
inductive ApiResult where
  | ok (body : List Char)
  | err (e : ApiClientError)
deriving DecidableEq

/-- api_client.rs update_message (lines 96-121): the edit issued for a text,
empty text being a silent no-op. -/
def update_message_calls (text : List Char) : List (List Char) :=
  if text.isEmpty then [] else [text]

/-- api_client.rs get_chat_gpt_response status classification
(lines 186-217), as a pure function of the upstream status and body:
the placeholder edits issued and the result signalled. -/
def get_chat_gpt_response (status : Nat) (body : List Char) :
    List (List Char) × ApiResult :=
  if status = 200 then ([], ApiResult.ok body)
  else if status = 429 then
    (update_message_calls USAGE_LIMIT_MESSAGE,
     ApiResult.err ApiClientError.openaiUsageLimit)
  else if status = 400 then
    let error_message :=
      if containsSub (strL "invalid_image_format") body then INVALID_IMAGE_FORMAT
      else ERROR_FROM_OPEN_AI_MESSAGE
    (update_message_calls error_message,
     ApiResult.err (ApiClientError.openaiError body))
  else
    (update_message_calls ERROR_FROM_OPEN_AI_MESSAGE,
     ApiResult.err (ApiClientError.openaiError body))

/-- handle_stream_response.rs finalization (lines 110-120): the edits issued
at end of stream given the accumulated text. -/
def handle_stream_final_edits (text : List Char) : List (List Char) :=
  update_message_calls (if text = [] then ERROR_FROM_OPEN_AI_MESSAGE else text)

/-- handle_request.rs handle_slack_event finalization (lines 410-420): the
edits issued at end of stream given the accumulated text and the text last
posted during streaming. -/
def handle_event_final_edits (text last_post_text : List Char) : List (List Char) :=
  if last_post_text ≠ text then update_message_calls text
  else if text = [] then update_message_calls ERROR_FROM_OPEN_AI_MESSAGE
  else []

/-- The bytes of an ASCII string literal. -/
def asciiBytes (s : String) : List Nat := s.data.map (fun c => c.toNat)

/-- One UTF-8 continuation byte. -/
def isContB (b : Nat) : Bool := 128 ≤ b && b ≤ 191

/-- Consume one UTF-8 encoded scalar value from the front of a byte list,
rejecting overlong forms, surrogates and values above U+10FFFF; returns the
remaining bytes. -/
def utf8Munch : List Nat → Option (List Nat)
  | [] => none
  | b :: rest =>
    if b ≤ 127 then some rest
    else if b < 194 then none
    else if b ≤ 223 then
      match rest with
      | b2 :: rest2 => if isContB b2 then some rest2 else none
      | [] => none
    else if b ≤ 239 then
      match rest with
      | b2 :: b3 :: rest3 =>
        if (if b = 224 then 160 ≤ b2 && b2 ≤ 191
            else if b = 237 then 128 ≤ b2 && b2 ≤ 159
            else isContB b2) && isContB b3 then some rest3 else none
      | _ => none
    else if b ≤ 244 then
      match rest with
      | b2 :: b3 :: b4 :: rest4 =>
        if (if b = 240 then 144 ≤ b2 && b2 ≤ 191
            else if b = 244 then 128 ≤ b2 && b2 ≤ 143
            else isContB b2) && isContB b3 && isContB b4 then some rest4 else none
      | _ => none
    else none

/-- Fuel-indexed UTF-8 validation loop; fuel at least the byte count never
runs out, since each munch consumes at least one byte. -/
def utf8ValidF : Nat → List Nat → Bool
  | 0, l => l.isEmpty
  | fuel + 1, l =>
    match l with
    | [] => true
    | _ :: _ =>
      match utf8Munch l with
      | some rest => utf8ValidF fuel rest
      | none => false

/-- Validity in the sense of std::str::from_utf8 (strict UTF-8: no overlong
forms, no surrogates, nothing above U+10FFFF). -/
def utf8Valid (l : List Nat) : Bool := utf8ValidF l.length l

/-- str::strip applied to a byte-level prefix: some remainder when the
pattern is a prefix, none otherwise. -/
def stripPre : List Nat → List Nat → Option (List Nat)
  | [], s => some s
  | _ :: _, [] => none
  | a :: as, b :: bs => if a = b then stripPre as bs else none

/-- Splitting a byte chunk on the newline byte, as slice::split does:
n separators yield n+1 pieces, empties included. -/
def splitOnNl : List Nat → List (List Nat)
  | [] => [[]]
  | b :: rest =>
    if b = 10 then [] :: splitOnNl rest
    else
      match splitOnNl rest with
      | [] => [[b]]
      | h :: t => (b :: h) :: t

/-- The UTF-8 encoding of a scalar value. -/
def encodeUtf8 (c : Nat) : List Nat :=
  if c ≤ 127 then [c]
  else if c ≤ 2047 then [192 + c / 64, 128 + c % 64]
  else if c ≤ 65535 then [224 + c / 4096, 128 + c / 64 % 64, 128 + c % 64]
  else [240 + c / 262144, 128 + c / 4096 % 64, 128 + c / 64 % 64, 128 + c % 64]

/-- Value of one hexadecimal digit byte. -/
def hexVal (b : Nat) : Option Nat :=
  if 48 ≤ b && b ≤ 57 then some (b - 48)
  else if 97 ≤ b && b ≤ 102 then some (b - 87)
  else if 65 ≤ b && b ≤ 70 then some (b - 55)
  else none

/-- Generic JSON values, as far as the serde payloads need them.  Numbers
carry no payload: they can only occur in ignored fields. -/
inductive Json where
  | null : Json
  | bool (b : Bool) : Json
  | num : Json
  | str (s : List Nat) : Json
  | arr (items : List Json) : Json
  | obj (fields : List (List Nat × Json)) : Json

/-- JSON string body parser (after the opening quote): unescapes into UTF-8
bytes, rejecting raw control bytes, bad escapes and lone surrogates, exactly
as serde_json does when the target is a Rust String. -/
def parseStr : List Nat → Option (List Nat × List Nat)
  | [] => none
  | b :: rest =>
    if b = 34 then some ([], rest)
    else if b = 92 then
      match rest with
      | 34 :: r => (parseStr r).map (fun pr => (34 :: pr.1, pr.2))
      | 92 :: r => (parseStr r).map (fun pr => (92 :: pr.1, pr.2))
      | 47 :: r => (parseStr r).map (fun pr => (47 :: pr.1, pr.2))
      | 98 :: r => (parseStr r).map (fun pr => (8 :: pr.1, pr.2))
      | 102 :: r => (parseStr r).map (fun pr => (12 :: pr.1, pr.2))
      | 110 :: r => (parseStr r).map (fun pr => (10 :: pr.1, pr.2))
      | 114 :: r => (parseStr r).map (fun pr => (13 :: pr.1, pr.2))
      | 116 :: r => (parseStr r).map (fun pr => (9 :: pr.1, pr.2))
      | 117 :: h1 :: h2 :: h3 :: h4 :: r =>
        match hexVal h1, hexVal h2, hexVal h3, hexVal h4 with
        | some x1, some x2, some x3, some x4 =>
          let cp := x1 * 4096 + x2 * 256 + x3 * 16 + x4
          if 55296 ≤ cp && cp ≤ 56319 then
            match r with
            | 92 :: 117 :: g1 :: g2 :: g3 :: g4 :: r2 =>
              match hexVal g1, hexVal g2, hexVal g3, hexVal g4 with
              | some y1, some y2, some y3, some y4 =>
                let cp2 := y1 * 4096 + y2 * 256 + y3 * 16 + y4
                if 56320 ≤ cp2 && cp2 ≤ 57343 then
                  (parseStr r2).map (fun pr =>
                    (encodeUtf8 (65536 + (cp - 55296) * 1024 + (cp2 - 56320)) ++ pr.1, pr.2))
                else none
              | _, _, _, _ => none
            | _ => none
          else if 56320 ≤ cp && cp ≤ 57343 then none
          else (parseStr r).map (fun pr => (encodeUtf8 cp ++ pr.1, pr.2))
        | _, _, _, _ => none
      | _ => none
    else if b < 32 then none
    else (parseStr rest).map (fun pr => (b :: pr.1, pr.2))

/-- ASCII digit byte. -/
def isDigitB (b : Nat) : Bool := 48 ≤ b && b ≤ 57

/-- Exponent part of a JSON number; returns the remainder. -/
def numExp (s : List Nat) : Option (List Nat) :=
  match s with
  | 101 :: r =>
    let r2 := match r with | 43 :: rr => rr | 45 :: rr => rr | _ => r
    match r2 with
    | b :: _ => if isDigitB b then some (r2.dropWhile isDigitB) else none
    | [] => none
  | 69 :: r =>
    let r2 := match r with | 43 :: rr => rr | 45 :: rr => rr | _ => r
    match r2 with
    | b :: _ => if isDigitB b then some (r2.dropWhile isDigitB) else none
    | [] => none
  | _ => some s

/-- Fraction and exponent parts of a JSON number. -/
def numFrac (s : List Nat) : Option (List Nat) :=
  match s with
  | 46 :: r =>
    match r with
    | b :: _ => if isDigitB b then numExp (r.dropWhile isDigitB) else none
    | [] => none
  | _ => numExp s

/-- JSON number parser; returns the remainder after a valid number. -/
def parseNum (s : List Nat) : Option (List Nat) :=
  let s1 := match s with | 45 :: r => r | _ => s
  match s1 with
  | [] => none
  | b :: r =>
    if b = 48 then numFrac r
    else if 49 ≤ b && b ≤ 57 then numFrac (r.dropWhile isDigitB)
    else none

/-- JSON insignificant whitespace byte. -/
def isWsB (b : Nat) : Bool := b = 32 || b = 9 || b = 10 || b = 13

/-- Skip JSON whitespace. -/
def skipWs (s : List Nat) : List Nat := s.dropWhile isWsB

/-- Parser mode: a value, the items of an array after [, or the fields of
an object after the opening brace. -/
inductive PM where
  | val
  | arrItems
  | objItems

/-- Parser intermediate result. -/
inductive PRes where
  | v (j : Json)
  | vs (js : List Json)
  | fs (fields : List (List Nat × Json))

/-- Fuel-indexed recursive-descent JSON parser over bytes. -/
def parseJ : Nat → PM → List Nat → Option (PRes × List Nat)
  | 0, _, _ => none
  | fuel + 1, PM.val, s =>
    match skipWs s with
    | [] => none
    | b :: rest =>
      if b = 110 then
        match rest with
        | 117 :: 108 :: 108 :: r => some (PRes.v Json.null, r)
        | _ => none
      else if b = 116 then
        match rest with
        | 114 :: 117 :: 101 :: r => some (PRes.v (Json.bool true), r)
        | _ => none
      else if b = 102 then
        match rest with
        | 97 :: 108 :: 115 :: 101 :: r => some (PRes.v (Json.bool false), r)
        | _ => none
      else if b = 34 then
        match parseStr rest with
        | some (content, r) => some (PRes.v (Json.str content), r)
        | none => none
      else if b = 91 then
        match skipWs rest with
        | 93 :: r => some (PRes.v (Json.arr []), r)
        | _ =>
          match parseJ fuel PM.arrItems rest with
          | some (PRes.vs js, r) => some (PRes.v (Json.arr js), r)
          | _ => none
      else if b = 123 then
        match skipWs rest with
        | 125 :: r => some (PRes.v (Json.obj []), r)
        | _ =>
          match parseJ fuel PM.objItems rest with
          | some (PRes.fs flds, r) => some (PRes.v (Json.obj flds), r)
          | _ => none
      else
        match parseNum (b :: rest) with
        | some r => some (PRes.v Json.num, r)
        | none => none
  | fuel + 1, PM.arrItems, s =>
    match parseJ fuel PM.val s with
    | some (PRes.v j, r) =>
      match skipWs r with
      | 44 :: r2 =>
        match parseJ fuel PM.arrItems r2 with
        | some (PRes.vs js, r3) => some (PRes.vs (j :: js), r3)
        | _ => none
      | 93 :: r2 => some (PRes.vs [j], r2)
      | _ => none
    | _ => none
  | fuel + 1, PM.objItems, s =>
    match skipWs s with
    | 34 :: rest =>
      match parseStr rest with
      | some (key, r) =>
        match skipWs r with
        | 58 :: r2 =>
          match parseJ fuel PM.val r2 with
          | some (PRes.v j, r3) =>
            match skipWs r3 with
            | 44 :: r4 =>
              match parseJ fuel PM.objItems r4 with
              | some (PRes.fs flds, r5) => some (PRes.fs ((key, j) :: flds), r5)
              | _ => none
            | 125 :: r4 => some (PRes.fs [(key, j)], r4)
            | _ => none
          | _ => none
        | _ => none
      | none => none
    | _ => none

/-- chat_gpt_res_body.rs ChatGptContent, with the content string as UTF-8
bytes (a Rust String is its UTF-8 bytes). -/
structure ChatGptContent where
  content : List Nat
deriving DecidableEq

/-- chat_gpt_res_body.rs ChatGptChoice. -/
structure ChatGptChoice where
  delta : Option ChatGptContent
deriving DecidableEq

/-- chat_gpt_res_body.rs ChatGptResBody. -/
structure ChatGptResBody where
  choices : List ChatGptChoice
deriving DecidableEq

/-- The values stored in an object under a key (serde errors out when a
known field occurs twice, so multiplicity matters). -/
def fieldHits (fields : List (List Nat × Json)) (key : List Nat) : List Json :=
  (fields.filter (fun f => f.1 == key)).map (fun f => f.2)

/-- serde deserialization of ChatGptContent from a JSON value: an object
whose content field is present exactly once and is a string. -/
def toContent (j : Json) : Option ChatGptContent :=
  match j with
  | Json.obj fs =>
    match fieldHits fs (asciiBytes "content") with
    | [Json.str s] => some { content := s }
    | _ => none
  | _ => none

/-- serde deserialization of ChatGptChoice: the optional delta field, with
absence and null both giving none. -/
def toChoice (j : Json) : Option ChatGptChoice :=
  match j with
  | Json.obj fs =>
    match fieldHits fs (asciiBytes "delta") with
    | [] => some { delta := none }
    | [Json.null] => some { delta := none }
    | [v] =>
      match toContent v with
      | some c => some { delta := some c }
      | none => none
    | _ => none
  | _ => none

/-- serde deserialization of ChatGptResBody: the mandatory choices array. -/
def toResBody (j : Json) : Option ChatGptResBody :=
  match j with
  | Json.obj fs =>
    match fieldHits fs (asciiBytes "choices") with
    | [Json.arr xs] =>
      match xs.mapM toChoice with
      | some cs => some { choices := cs }
      | none => none
    | _ => none
  | _ => none

/-- serde_json::from_str::&lt;ChatGptResBody&gt; over UTF-8 bytes: one JSON value,
surrounding whitespace allowed, nothing else trailing. -/
def chatGptFromStr (s : List Nat) : Option ChatGptResBody :=
  match parseJ (4 * s.length + 16) PM.val s with
  | some (PRes.v j, r) => if skipWs r = [] then toResBody j else none
  | _ => none

/-- chat_gpt_res_body.rs get_content: the content of the first choice
carrying a delta, empty otherwise. -/
def get_content (body : ChatGptResBody) : List Nat :=
  match body.choices.findSome? (fun c => c.delta) with
  | some d => d.content
  | none => []

/-- The stream reassembler's accumulator in handle_stream_response.rs:
the accumulated text and the two carry-over buffers partial_str and
partial_bytes (all Rust Strings kept as their UTF-8 bytes). -/
structure StreamAcc where
  text : List Nat
  carryStr : List Nat
  carryBytes : List Nat
deriving DecidableEq

/-- The byte list "data: ". -/
def dataPre : List Nat := [100, 97, 116, 97, 58, 32]

/-- The byte list "[DONE]". -/
def doneBytes : List Nat := [91, 68, 79, 78, 69, 93]

/-- The text-accumulation step of update_message_every_second
(handle_stream_response.rs lines 218-241): empty fragments are ignored,
others appended. -/
def textAfter (text : List Nat) (json : ChatGptResBody) : List Nat :=
  let content := get_content json
  if content.length = 0 then text else text ++ content

/-- Processing of one newline-delimited candidate line by the loop body of
handle_stream_response (lines 33-101), including
update_message_if_complite_string (123-164) and
update_message_if_complite_bytes (166-216).  The boolean is the break flag
terminating the current chunk. -/
def processLine (acc : StreamAcc) (line : List Nat) : StreamAcc × Bool :=
  if utf8Valid line then
    match stripPre dataPre line with
    | some p =>
      if p = doneBytes then (acc, true)
      else
        match chatGptFromStr p with
        | some json => ({ acc with text := textAfter acc.text json }, false)
        | none => ({ acc with carryStr := dataPre ++ p }, false)
    | none =>
      let ps := acc.carryStr ++ line
      match stripPre dataPre ps with
      | some ps2 =>
        if ps2 = doneBytes then ({ acc with carryStr := ps }, true)
        else
          match chatGptFromStr ps2 with
          | some json =>
            ({ acc with text := textAfter acc.text json, carryStr := [] }, false)
          | none => ({ acc with carryStr := ps }, false)
      | none => ({ acc with carryStr := ps }, false)
  else
    let pb := acc.carryBytes ++ line
    if utf8Valid pb then
      match stripPre dataPre pb with
      | some ps2 =>
        if ps2 = doneBytes then ({ acc with carryBytes := pb }, true)
        else
          match chatGptFromStr ps2 with
          | some json =>
            ({ acc with text := textAfter acc.text json, carryBytes := [] }, false)
          | none => ({ acc with carryBytes := pb }, false)
      | none => ({ acc with carryBytes := pb }, false)
    else ({ acc with carryBytes := pb }, false)

/-- Folding processLine over the lines of one chunk, stopping at a break. -/
def processLines (acc : StreamAcc) : List (List Nat) → StreamAcc
  | [] => acc
  | l :: ls =>
    match processLine acc l with
    | (acc2, true) => acc2
    | (acc2, false) => processLines acc2 ls

/-- Processing one received chunk: split on newlines, then the line loop. -/
def processChunk (acc : StreamAcc) (chunk : List Nat) : StreamAcc :=
  processLines acc (splitOnNl chunk)

/-- The whole while-let loop of handle_stream_response over a given chunk
sequence, from the initial empty state. -/
def runChunks (chunks : List (List Nat)) : StreamAcc :=
  chunks.foldl processChunk { text := [], carryStr := [], carryBytes := [] }

/-- The final accumulated text after consuming the chunk sequence. -/
def finalAccText (chunks : List (List Nat)) : List Nat :=
  (runChunks chunks).text

/-- One complete stream frame: prefix, payload, newline. -/
def frameBytes (p : List Nat) : List Nat := dataPre ++ p ++ [10]

/-- The terminating frame of a complete stream. -/
def doneLineUnit : List Nat := dataPre ++ doneBytes ++ [10]

/-- The frames of a complete response stream with the given payloads. -/
def streamUnits (ps : List (List Nat)) : List (List Nat) :=
  ps.map frameBytes ++ [doneLineUnit]

/-- A well-formed non-terminal frame payload: valid UTF-8, newline-free,
not the end marker, and parseable as a ChatGptResBody. -/
def goodPayload (p : List Nat) : Prop :=
  utf8Valid p = true ∧ 10 ∉ p ∧ p ≠ doneBytes ∧ (chatGptFromStr p).isSome = true

instance goodPayloadDecidable (p : List Nat) : Decidable (goodPayload p) := by
  unfold goodPayload; infer_instance

/-- The text fragment a payload contributes. -/
def contentOf (p : List Nat) : List Nat :=
  match chatGptFromStr p with
  | some b => get_content b
  | none => []

/-- The concatenation of all fragments of a payload sequence. -/
def streamText (ps : List (List Nat)) : List Nat :=
  (ps.map contentOf).flatten

/-- update_message_every_second (handle_stream_response.rs lines 218-241)
with the elapsed wall-clock time since the last issued edit passed in
milliseconds: returns the new accumulated text, the new last-posted text,
and the edits issued. -/
def update_message_every_second (json : ChatGptResBody) (text : List Nat)
    (elapsed_ms : Nat) (last_post_text : List Nat) :
    List Nat × List Nat × List (List Nat) :=
  let content := get_content json
  if content.length = 0 then (text, last_post_text, [])
  else
    let text2 := text ++ content
    if 1000 < elapsed_ms then
      (text2, text2, if text2.isEmpty then [] else [text2])
    else (text2, last_post_text, [])

/-- Concrete payload used below: one delta whose content itself contains
the frame prefix "data: ". -/
def plW : List Nat :=
  asciiBytes "\x7b\"choices\":[\x7b\"delta\":\x7b\"content\":\"data: x\"\x7d\x7d]\x7d"

/-- First chunk of the intra-frame split of the plW stream: the frame cut
just before the inner occurrence of "data: ". -/
def chunkA : List Nat :=
  dataPre ++ asciiBytes "\x7b\"choices\":[\x7b\"delta\":\x7b\"content\":\""

/-- Second chunk of the intra-frame split of the plW stream. -/
def chunkB : List Nat :=
  asciiBytes "data: x\"\x7d\x7d]\x7d" ++ [10] ++ doneLineUnit

/-- A concrete message whose text carries no past-directive. -/
def msgHi : SlackMessage :=
  { text := strL "hi", thread_ts := none, type_name := strL "message", subtype := none,
    user := strL "U1", channel := some (strL "C1"), ts := strL "1700000000.000100",
    channel_type := none, files := none }

/-- A concrete message whose raw text starts with the directive past5. -/
def msgPast5 : SlackMessage :=
  { text := strL "past5 x", thread_ts := none, type_name := strL "message", subtype := none,
    user := strL "U1", channel := some (strL "C1"), ts := strL "1700000000.000200",
    channel_type := none, files := none }

/-- A concrete channel message that leads with a mention and only then the
directive, as Slack delivers mention-triggered texts. -/
def msgMention : SlackMessage :=
  { text := strL "<@BOT> past5 hi", thread_ts := none, type_name := strL "message",
    subtype := none, user := strL "U1", channel := some (strL "C1"),
    ts := strL "1700000000.000300", channel_type := none, files := none }

/-- A concrete message of the C3 shape: mention, directive past1, then the
remainder "x> tail" which itself contains "> ". -/
def msgC3 : SlackMessage :=
  { text := strL "<@U> past1x> tail", thread_ts := none, type_name := strL "message",
    subtype := none, user := strL "U1", channel := some (strL "C1"),
    ts := strL "1700000000.000400", channel_type := none, files := none }

/-- A concrete in-thread channel message mentioning a user other than the
bot. -/
def msgThreadOther : SlackMessage :=
  { text := strL "<@USER> hi", thread_ts := some (strL "1700000000.000500"),
    type_name := strL "message", subtype := none, user := strL "U2",
    channel := some (strL "C1"), ts := strL "1700000000.000600",
    channel_type := none, files := none }

/-- A concrete message sent by the bot itself. -/
def msgFromBot : SlackMessage :=
  { text := strL "hello", thread_ts := none, type_name := strL "message", subtype := none,
    user := strL "BOT", channel := some (strL "C1"), ts := strL "1700000000.000700",
    channel_type := none, files := none }

/-- A concrete 400 response body carrying the invalid-image-format marker. -/
def bodyMarker : List Char := strL "xx invalid_image_format yy"

/-- A concrete streamed delta whose content is the bytes of Hello. -/
def jsonHello : ChatGptResBody :=
  { choices := [{ delta := some { content := asciiBytes "Hello" } }] }

/-- A concrete streamed delta with empty content. -/
def jsonEmpty : ChatGptResBody :=
  { choices := [{ delta := some { content := [] } }] }

/-- Whether a character list starts with a space. -/
def headIsSp : List Char → Bool
  | [] => false
  | c :: _ => c == ' '

/-- Whether a character list contains the two-character window "> "
(the window the greedy mention regex can extend its match to). -/
def hasGtSp : List Char → Bool
  | [] => false
  | c :: t => (c == '>' && headIsSp t) || hasGtSp t

/-- Whether a character list starts with a Unicode decimal digit (the
class the greedy \d+ would consume). -/
def headDigit : List Char → Bool
  | [] => false
  | c :: _ => isUniDigit c

/-- A concrete message whose directive digits mix the ASCII digit 5 with
the full-width digit U+FF15: the regex \d captures both, and the i32 parse
of the capture fails. -/
def msgPastWide : SlackMessage :=
  { text := strL "past5５x", thread_ts := none, type_name := strL "message",
    subtype := none, user := strL "U1", channel := some (strL "C1"),
    ts := strL "1700000000.000900", channel_type := none, files := none }

/-- A concrete message of the amended C3 shape: mention, directive past2,
remainder with surrounding spaces and no "> " window. -/
def msgC3W : SlackMessage :=
  { text := strL "<@U123> past2 hello ", thread_ts := none, type_name := strL "message",
    subtype := none, user := strL "U1", channel := some (strL "C1"),
    ts := strL "1700000000.000800", channel_type := none, files := none }

/- ------------------------------------------------------------------ -/
/- Theorems.                                                          -/
/- ------------------------------------------------------------------ -/

theorem stripPre_self_append (pre s : List Nat) : stripPre pre (pre ++ s) = some s := by
  induction pre with
  | nil => rfl
  | cons a as ih => simp [stripPre, ih]

theorem utf8Munch_ascii (b : Nat) (s : List Nat) (h : b ≤ 127) :
    utf8Munch (b :: s) = some s := by
  unfold utf8Munch
  simp only []
  rw [if_pos h]

theorem utf8ValidF_cons_ascii (n b : Nat) (s : List Nat) (h : b ≤ 127) :
    utf8ValidF (n + 1) (b :: s) = utf8ValidF n s := by
  conv_lhs => unfold utf8ValidF
  simp only []
  rw [utf8Munch_ascii b s h]

theorem utf8Valid_dataPre (s : List Nat) : utf8Valid (dataPre ++ s) = utf8Valid s := by
  show utf8ValidF (dataPre ++ s).length (dataPre ++ s) = utf8ValidF s.length s
  have hl : (dataPre ++ s).length = s.length + 6 := by simp [dataPre]
  rw [hl]
  show utf8ValidF (s.length + 6) (100 :: 97 :: 116 :: 97 :: 58 :: 32 :: s) = utf8ValidF s.length s
  rw [utf8ValidF_cons_ascii _ 100 _ (by norm_num), utf8ValidF_cons_ascii _ 97 _ (by norm_num),
    utf8ValidF_cons_ascii _ 116 _ (by norm_num), utf8ValidF_cons_ascii _ 97 _ (by norm_num),
    utf8ValidF_cons_ascii _ 58 _ (by norm_num), utf8ValidF_cons_ascii _ 32 _ (by norm_num)]

theorem splitOnNl_line (l rest : List Nat) (h : 10 ∉ l) :
    splitOnNl (l ++ 10 :: rest) = l :: splitOnNl rest := by
  induction l with
  | nil => simp [splitOnNl]
  | cons b l' ih =>
    have hb : b ≠ 10 := fun hb => h (hb ▸ List.mem_cons_self b l')
    have ih' := ih (fun hm => h (List.mem_cons_of_mem b hm))
    simp [splitOnNl, hb, ih']

theorem textAfter_eq (t : List Nat) (b : ChatGptResBody) :
    textAfter t b = t ++ get_content b := by
  unfold textAfter
  by_cases h : (get_content b).length = 0
  · simp [h, List.length_eq_zero.mp h]
  · simp [h]

theorem processLine_frame (t p : List Nat) (h : goodPayload p) :
    processLine ⟨t, [], []⟩ (dataPre ++ p) = (⟨t ++ contentOf p, [], []⟩, false) := by
  obtain ⟨hv, _, hnd, hs⟩ := h
  obtain ⟨b, hb⟩ := Option.isSome_iff_exists.mp hs
  unfold processLine
  rw [utf8Valid_dataPre, hv, stripPre_self_append]
  simp only [if_true]
  rw [if_neg hnd, hb]
  simp only []
  rw [textAfter_eq]
  unfold contentOf
  rw [hb]

theorem processLine_done (t : List Nat) :
    processLine ⟨t, [], []⟩ (dataPre ++ doneBytes) = (⟨t, [], []⟩, true) := by
  unfold processLine
  rw [utf8Valid_dataPre, stripPre_self_append]
  have h1 : utf8Valid doneBytes = true := by decide
  rw [if_pos h1]
  simp only []
  rw [if_pos trivial]

theorem processLine_empty (t : List Nat) :
    processLine ⟨t, [], []⟩ [] = (⟨t, [], []⟩, false) := rfl


theorem processLines_nil (acc : StreamAcc) : processLines acc [] = acc := rfl

theorem processLines_step_false (acc acc2 : StreamAcc) (l : List Nat) (ls : List (List Nat))
    (h : processLine acc l = (acc2, false)) :
    processLines acc (l :: ls) = processLines acc2 ls := by
  simp [processLines, h]

theorem processLines_step_true (acc acc2 : StreamAcc) (l : List Nat) (ls : List (List Nat))
    (h : processLine acc l = (acc2, true)) :
    processLines acc (l :: ls) = acc2 := by
  simp [processLines, h]

theorem processLines_frames (qs : List (List Nat)) (t : List Nat) (suffix : List Nat)
    (h : ∀ p ∈ qs, goodPayload p) :
    processLines ⟨t, [], []⟩ (splitOnNl ((qs.map frameBytes).flatten ++ suffix)) =
      processLines ⟨t ++ streamText qs, [], []⟩ (splitOnNl suffix) := by
  induction qs generalizing t with
  | nil => simp [streamText]
  | cons p qs' ih =>
    have hp : goodPayload p := h p (List.mem_cons_self p qs')
    have h' : ∀ q ∈ qs', goodPayload q := fun q hq => h q (List.mem_cons_of_mem p hq)
    have hnl : 10 ∉ dataPre ++ p := by
      intro hm
      rcases List.mem_append.mp hm with h1 | h2
      · simp [dataPre] at h1
      · exact hp.2.1 h2
    have harr : (((p :: qs').map frameBytes).flatten ++ suffix) =
        (dataPre ++ p) ++ 10 :: ((qs'.map frameBytes).flatten ++ suffix) := by
      simp [frameBytes]
    rw [harr, splitOnNl_line _ _ hnl]
    rw [processLines_step_false _ _ _ _ (processLine_frame t p hp)]
    rw [ih (t ++ contentOf p) h']
    have hacc : t ++ contentOf p ++ streamText qs' = t ++ streamText (p :: qs') := by
      have hst : streamText (p :: qs') = contentOf p ++ streamText qs' := by
        simp [streamText]
      rw [hst, List.append_assoc]
    rw [hacc]

theorem processChunk_frames (qs : List (List Nat)) (t : List Nat)
    (h : ∀ p ∈ qs, goodPayload p) :
    processChunk ⟨t, [], []⟩ ((qs.map frameBytes).flatten) =
      ⟨t ++ streamText qs, [], []⟩ := by
  unfold processChunk
  have harr : (qs.map frameBytes).flatten = (qs.map frameBytes).flatten ++ [] := by simp
  rw [harr, processLines_frames qs t [] h]
  show processLines _ [[]] = _
  rw [processLines_step_false _ _ _ _ (processLine_empty _), processLines_nil]

theorem processChunk_done (qs : List (List Nat)) (t : List Nat)
    (h : ∀ p ∈ qs, goodPayload p) :
    processChunk ⟨t, [], []⟩ ((qs.map frameBytes).flatten ++ doneLineUnit) =
      ⟨t ++ streamText qs, [], []⟩ := by
  unfold processChunk
  rw [processLines_frames qs t doneLineUnit h]
  have hsplit : splitOnNl doneLineUnit = (dataPre ++ doneBytes) :: splitOnNl [] := by
    have hd : doneLineUnit = (dataPre ++ doneBytes) ++ 10 :: [] := by
      simp [doneLineUnit]
    rw [hd]
    exact splitOnNl_line _ _ (by simp [dataPre, doneBytes])
  rw [hsplit]
  exact processLines_step_true _ _ _ _ (processLine_done _)

theorem processChunk_nil (t : List Nat) :
    processChunk ⟨t, [], []⟩ [] = ⟨t, [], []⟩ := rfl

theorem foldl_empty_chunks (parts : List (List (List Nat))) (t : List Nat)
    (h : parts.flatten = []) :
    (parts.map List.flatten).foldl processChunk ⟨t, [], []⟩ = ⟨t, [], []⟩ := by
  induction parts with
  | nil => rfl
  | cons g parts' ih =>
    have hg : g = [] := by
      have := List.flatten_eq_nil_iff.mp h
      exact this g (List.mem_cons_self g parts')
    have h' : parts'.flatten = [] := by
      rw [List.flatten_cons, hg] at h
      simpa using h
    simp only [List.map_cons, List.foldl_cons, hg]
    show List.foldl processChunk (processChunk ⟨t, [], []⟩ []) _ = _
    rw [processChunk_nil]
    exact ih h'

theorem map_split {α β : Type} (f : α → β) :
    ∀ (qs : List α) (xs ys : List β), qs.map f = xs ++ ys →
      ∃ q1 q2, qs = q1 ++ q2 ∧ q1.map f = xs ∧ q2.map f = ys := by
  intro qs xs ys h
  exact List.map_eq_append_iff.mp h

theorem runChunks_aux (parts : List (List (List Nat))) (qs : List (List Nat)) (t : List Nat)
    (hgood : ∀ p ∈ qs, goodPayload p)
    (hparts : parts.flatten = qs.map frameBytes ++ [doneLineUnit]) :
    (parts.map List.flatten).foldl processChunk ⟨t, [], []⟩ =
      ⟨t ++ streamText qs, [], []⟩ := by
  induction parts generalizing qs t with
  | nil =>
    exfalso
    rw [List.flatten_nil] at hparts
    cases qs <;> simp at hparts
  | cons g parts' ih =>
    rw [List.flatten_cons] at hparts
    rcases List.append_eq_append_iff.mp hparts with ⟨a, ha1, ha2⟩ | ⟨c, hc1, hc2⟩
    · -- g is a prefix of the non-terminal frames
      obtain ⟨q1, q2, hq, hq1, hq2⟩ := map_split frameBytes qs g a ha1
      have hgood1 : ∀ p ∈ q1, goodPayload p := by
        intro p hp
        exact hgood p (by rw [hq]; exact List.mem_append.mpr (Or.inl hp))
      have hgood2 : ∀ p ∈ q2, goodPayload p := by
        intro p hp
        exact hgood p (by rw [hq]; exact List.mem_append.mpr (Or.inr hp))
      simp only [List.map_cons, List.foldl_cons]
      rw [← hq1, processChunk_frames q1 t hgood1]
      rw [ih q2 (t ++ streamText q1) hgood2 (by rw [ha2, hq2])]
      have hs : streamText qs = streamText q1 ++ streamText q2 := by
        rw [hq]; simp [streamText]
      rw [hs, List.append_assoc]
    · -- g swallows all frames and possibly the terminal frame
      cases c with
      | nil =>
        -- terminal frame still ahead: g is exactly all non-terminal frames
        simp only [List.append_nil] at hc1
        have h2 : parts'.flatten = [doneLineUnit] := by
          simpa using hc2.symm
        simp only [List.map_cons, List.foldl_cons]
        rw [hc1, processChunk_frames qs t hgood]
        have hres := ih [] (t ++ streamText qs)
          (by intro p hp; cases hp) (by rw [h2]; simp)
        simpa [streamText] using hres
      | cons u c' =>
        have hu : doneLineUnit = u ∧ [] = c' ++ parts'.flatten := by
          rw [List.cons_append] at hc2
          exact List.cons_eq_cons.mp hc2
        obtain ⟨hu1, hu2⟩ := hu
        have hc' : c' = [] := (List.append_eq_nil.mp hu2.symm).1
        have hrest : parts'.flatten = [] := (List.append_eq_nil.mp hu2.symm).2
        rw [← hu1, hc'] at hc1
        simp only [List.map_cons, List.foldl_cons]
        rw [hc1]
        have hfl : (qs.map frameBytes ++ [doneLineUnit]).flatten =
            (qs.map frameBytes).flatten ++ doneLineUnit := by
          simp
        rw [hfl, processChunk_done qs t hgood]
        exact foldl_empty_chunks parts' _ hrest

/-- C1, amended.  For every complete response stream of "data: "-prefixed,
newline-delimited frames terminated by the [DONE] marker, feeding the stream
to the reassembler split at frame boundaries (every chunk a whole number of
frames) produces the same final accumulated text as feeding the entire
stream as one chunk.  The original claim's arbitrary byte-level boundaries
do not hold: a split inside a frame whose continuation fragment itself
begins with "data: " overwrites the carry-over buffer and loses the frame
(see the counterexample). -/
theorem c1_stream_reassembly_frame_boundary (ps : List (List Nat))
    (parts : List (List (List Nat)))
    (hgood : ∀ p ∈ ps, goodPayload p) (hparts : parts.flatten = streamUnits ps) :
    finalAccText (parts.map List.flatten) = finalAccText [(streamUnits ps).flatten] := by
  unfold finalAccText runChunks
  have h1 := runChunks_aux parts ps [] hgood (by rw [hparts]; rfl)
  have h2 := runChunks_aux [streamUnits ps] ps [] hgood (by simp [streamUnits])
  rw [h1]
  have hmap : [(streamUnits ps).flatten] = List.map List.flatten [streamUnits ps] := rfl
  rw [hmap, h2]

/-- C1, counterexample to the claim as stated.  The payload plW is a
well-formed frame payload whose content contains "data: "; cutting its
frame just before that inner occurrence is a byte-level chunk boundary, yet
the reassembled text differs from single-chunk processing (the carry-over
buffer is overwritten by the continuation fragment that itself starts with
"data: ", so the fragment "data: x" is lost). -/
theorem c1_counterexample :
    goodPayload plW ∧
    chunkA ++ chunkB = (streamUnits [plW]).flatten ∧
    finalAccText [chunkA, chunkB] ≠ finalAccText [chunkA ++ chunkB] := by
  refine ⟨by decide, by decide, by decide⟩

/-- Witness for C1: the amended theorem applied to the concrete one-frame
stream over plW, split at the frame boundary. -/
theorem c1_stream_reassembly_frame_boundary_witness :
    (∀ p ∈ [plW], goodPayload p) ∧
    finalAccText (List.map List.flatten [[frameBytes plW], [doneLineUnit]]) =
      finalAccText [(streamUnits [plW]).flatten] :=
  ⟨by decide, c1_stream_reassembly_frame_boundary [plW] [[frameBytes plW], [doneLineUnit]]
      (by decide) (by decide)⟩

/-- Fidelity check: on a directive mixing ASCII and full-width digits, the
capture is the whole Unicode digit run, its i32 parse fails, and get_limit
falls back to default + 1 — exactly as the program does. -/
theorem test_get_limit_unicode_digits :
    pastCapture msgPastWide.text = some ['5', '５'] ∧
    parseI32Digits ['5', '５'] = none ∧
    get_limit msgPastWide 100 10 = 101 := by
  refine ⟨by decide, by decide, by decide⟩

/-- Fidelity check: str::trim removes trailing ideographic space U+3000. -/
theorem test_trim_ideographic_space :
    trimChars (strL "a　 ") = strL "a" := by decide

theorem parseI32Digits_nonneg (ds : List Char) (n : Int)
    (h : parseI32Digits ds = some n) : 0 ≤ n := by
  unfold parseI32Digits at h
  by_cases h1 : ds.isEmpty = true
  · rw [if_pos h1] at h
    exact Option.noConfusion h
  · rw [if_neg h1] at h
    by_cases h2 : ds.all (fun c => c.isDigit) = true
    · rw [if_pos h2] at h
      by_cases hle : (ds.foldl (fun a c => a * 10 + (c.toNat - 48)) 0) ≤ 2147483647
      · rw [if_pos hle] at h
        cases h
        exact Int.ofNat_nonneg _
      · rw [if_neg hle] at h
        exact Option.noConfusion h
    · rw [if_neg h2] at h
      exact Option.noConfusion h

/-- C2, counterexample to the claim as stated.  With no directive present,
get_limit returns default + 1 without clamping the default: for default 100
and maxPast 10 the pre-increment value is 100, outside [0, 10], and the
result is not the clamped 10 + 1 the claim prescribes. -/
theorem c2_counterexample :
    get_limit msgHi 100 10 = 101 ∧
    get_limit msgHi 100 10 ≠ 10 + 1 ∧
    ¬(get_limit msgHi 100 10 - 1 ≤ 10) := by
  refine ⟨by decide, by decide, by decide⟩

/-- C2, amended.  When a leading past-digits directive is present and its
digits parse as an i32, the parsed value is clamped to [0, maxPast]
(assuming 0 ≤ maxPast) and the function returns the clamp plus one, the
pre-increment value lying in [0, maxPast]; when the directive is absent, or
its digits overflow i32, the function returns default + 1 with the default
not clamped. -/
theorem c2_get_limit_clamp (m : SlackMessage) (default max_past : Int)
    (hmax : 0 ≤ max_past) :
    (∀ ds n, pastCapture m.text = some ds → parseI32Digits ds = some n →
      get_limit m default max_past = min n max_past + 1 ∧
      0 ≤ min n max_past ∧ min n max_past ≤ max_past) ∧
    (pastCapture m.text = none → get_limit m default max_past = default + 1) ∧
    (∀ ds, pastCapture m.text = some ds → parseI32Digits ds = none →
      get_limit m default max_past = default + 1) := by
  refine ⟨?_, ?_, ?_⟩
  · intro ds n hds hn
    have hn0 : 0 ≤ n := parseI32Digits_nonneg ds n hn
    unfold get_limit
    rw [hds]
    simp only []
    rw [hn]
    simp only []
    by_cases hgt : n > max_past
    · rw [if_pos hgt]
      have hmin : min n max_past = max_past := min_eq_right (le_of_lt hgt)
      rw [hmin]
      exact ⟨rfl, hmax, le_refl _⟩
    · rw [if_neg hgt]
      have hlt : ¬(n < 0) := not_lt.mpr hn0
      rw [if_neg hlt]
      have hmin : min n max_past = n := min_eq_left (not_lt.mp hgt)
      rw [hmin]
      exact ⟨rfl, hn0, not_lt.mp hgt⟩
  · intro h
    unfold get_limit
    rw [h]
  · intro ds hds hn
    unfold get_limit
    rw [hds]
    simp only []
    rw [hn]

/-- Witness for C2: the amended theorem at the concrete message past5. -/
theorem c2_get_limit_clamp_witness :
    (0 : Int) ≤ 10 ∧ pastCapture msgPast5.text = some (strL "5") ∧
    parseI32Digits (strL "5") = some 5 ∧
    (get_limit msgPast5 3 10 = min 5 10 + 1 ∧
     0 ≤ min (5 : Int) 10 ∧ min (5 : Int) 10 ≤ 10) :=
  ⟨by decide, by decide, by decide,
   (c2_get_limit_clamp msgPast5 3 10 (by decide)).1 (strL "5") 5 (by decide) (by decide)⟩

/-- C5, counterexample to the claim as stated.  An HTTP 400 response whose
body carries the invalid-image-format marker does not signal a distinct
error kind: the signalled error is OpenaiError(body), the same constructor
signalled for any other non-200 status such as 500; only the message edited
into the placeholder distinguishes the case. -/
theorem c5_counterexample :
    (get_chat_gpt_response 400 bodyMarker).2 =
      ApiResult.err (ApiClientError.openaiError bodyMarker) ∧
    (get_chat_gpt_response 500 bodyMarker).2 =
      ApiResult.err (ApiClientError.openaiError bodyMarker) ∧
    (get_chat_gpt_response 400 bodyMarker).1 = [INVALID_IMAGE_FORMAT] := by
  refine ⟨by decide, by decide, by decide⟩

/-- C5, amended.  The completion client classifies the upstream response by
status: 200 returns the body as the stream; 429 edits the placeholder with
the fixed usage-limit message and signals the distinct OpenaiUsageLimit
kind; 400 whose body contains the invalid-image-format marker edits the
placeholder with the fixed unsupported-format message but signals
OpenaiError(body), the same kind as every other non-200 status; every other
non-200 edits the generic upstream-error message and signals
OpenaiError(body). -/
theorem c5_response_classification (status : Nat) (body : List Char) :
    (status = 200 → get_chat_gpt_response status body = ([], ApiResult.ok body)) ∧
    (status = 429 → get_chat_gpt_response status body =
      ([USAGE_LIMIT_MESSAGE], ApiResult.err ApiClientError.openaiUsageLimit)) ∧
    (status = 400 → containsSub (strL "invalid_image_format") body = true →
      get_chat_gpt_response status body =
        ([INVALID_IMAGE_FORMAT], ApiResult.err (ApiClientError.openaiError body))) ∧
    (status = 400 → containsSub (strL "invalid_image_format") body = false →
      get_chat_gpt_response status body =
        ([ERROR_FROM_OPEN_AI_MESSAGE], ApiResult.err (ApiClientError.openaiError body))) ∧
    (status ≠ 200 → status ≠ 429 → status ≠ 400 →
      get_chat_gpt_response status body =
        ([ERROR_FROM_OPEN_AI_MESSAGE], ApiResult.err (ApiClientError.openaiError body))) := by
  have husage : update_message_calls USAGE_LIMIT_MESSAGE = [USAGE_LIMIT_MESSAGE] := rfl
  have hinv : update_message_calls INVALID_IMAGE_FORMAT = [INVALID_IMAGE_FORMAT] := rfl
  have herr : update_message_calls ERROR_FROM_OPEN_AI_MESSAGE =
      [ERROR_FROM_OPEN_AI_MESSAGE] := rfl
  refine ⟨?_, ?_, ?_, ?_, ?_⟩
  · intro h; subst h; rfl
  · intro h; subst h
    unfold get_chat_gpt_response
    norm_num
    exact husage
  · intro h hm; subst h
    unfold get_chat_gpt_response
    norm_num
    rw [if_pos hm, hinv]
  · intro h hm; subst h
    unfold get_chat_gpt_response
    norm_num
    rw [hm]
    norm_num
    exact herr
  · intro h200 h429 h400
    unfold get_chat_gpt_response
    rw [if_neg h200, if_neg h429, if_neg h400, herr]

/-- Witness for C5: the amended theorem at the concrete 429 case. -/
theorem c5_response_classification_witness :
    get_chat_gpt_response 429 bodyMarker =
      ([USAGE_LIMIT_MESSAGE], ApiResult.err ApiClientError.openaiUsageLimit) :=
  (c5_response_classification 429 bodyMarker).2.1 rfl

/-- C6.  At end of stream: the handle_stream_response finalizer always
issues exactly one edit, with the full accumulated text when it is nonempty
and with the fixed no-content message when it is empty; the
handle_slack_event finalizer issues one edit with the full accumulated text
whenever it differs from the last posted text, issues the fixed no-content
edit when the accumulated text is empty, and skips the edit only when the
nonempty accumulated text was already posted — so the placeholder is never
left holding only the loading indicator.  The hypothesis records the
reachable states: the last posted text is a snapshot of the accumulated
text, which only grows, so an empty accumulated text forces an empty last
posted text. -/
theorem c6_finalization (text last : List Char) (hreach : text = [] → last = []) :
    (text ≠ [] → handle_stream_final_edits text = [text]) ∧
    (text = [] → handle_stream_final_edits text = [ERROR_FROM_OPEN_AI_MESSAGE]) ∧
    (last ≠ text → handle_event_final_edits text last = [text]) ∧
    (text = [] → handle_event_final_edits text last = [ERROR_FROM_OPEN_AI_MESSAGE]) ∧
    (handle_event_final_edits text last = [] → last = text ∧ text ≠ []) := by
  have herr : update_message_calls ERROR_FROM_OPEN_AI_MESSAGE =
      [ERROR_FROM_OPEN_AI_MESSAGE] := rfl
  have hcalls : ∀ t : List Char, t ≠ [] → update_message_calls t = [t] := by
    intro t ht
    unfold update_message_calls
    cases t with
    | nil => exact absurd rfl ht
    | cons c cs => rfl
  refine ⟨?_, ?_, ?_, ?_, ?_⟩
  · intro ht
    unfold handle_stream_final_edits
    rw [if_neg ht, hcalls text ht]
  · intro ht
    unfold handle_stream_final_edits
    rw [if_pos ht, herr]
  · intro hl
    have ht : text ≠ [] := by
      intro he
      exact hl (by rw [hreach he, he])
    unfold handle_event_final_edits
    rw [if_pos hl, hcalls text ht]
  · intro ht
    have hl : ¬(last ≠ text) := by
      rw [hreach ht, ht]
      exact fun h => h rfl
    unfold handle_event_final_edits
    rw [if_neg hl, if_pos ht, herr]
  · intro hemp
    by_cases hl : last ≠ text
    · have ht : text ≠ [] := by
        intro he
        exact hl (by rw [hreach he, he])
      rw [(by unfold handle_event_final_edits; rw [if_pos hl, hcalls text ht] :
        handle_event_final_edits text last = [text])] at hemp
      cases hemp
    · by_cases ht : text = []
      · rw [(by unfold handle_event_final_edits; rw [if_neg hl, if_pos ht, herr] :
          handle_event_final_edits text last = [ERROR_FROM_OPEN_AI_MESSAGE])] at hemp
        cases hemp
      · exact ⟨not_not.mp hl, ht⟩

/-- Witness for C6: two concrete finalizations, an unposted tail and the
empty completion. -/
theorem c6_finalization_witness :
    handle_event_final_edits (strL "abc") [] = [strL "abc"] ∧
    handle_event_final_edits [] [] = [ERROR_FROM_OPEN_AI_MESSAGE] :=
  ⟨(c6_finalization (strL "abc") [] (by intro h; cases h)).2.2.1 (by decide),
   (c6_finalization [] [] (fun _ => rfl)).2.2.2.1 rfl⟩

/-- C7.  During streaming an edit is issued only when the received fragment
is nonempty — so the accumulated text strictly changes — and more than a
second has elapsed since the last issued edit (hence at least 1000 ms); a
chunk with an empty fragment never triggers an edit, and neither does one
arriving within the 1000 ms window. -/
theorem c7_throttled_emission (json : ChatGptResBody) (text : List Nat)
    (ms : Nat) (last : List Nat) :
    ((update_message_every_second json text ms last).2.2 ≠ [] →
      get_content json ≠ [] ∧
      (update_message_every_second json text ms last).1 ≠ text ∧ 1000 ≤ ms) ∧
    (get_content json = [] → (update_message_every_second json text ms last).2.2 = []) ∧
    (ms < 1000 → (update_message_every_second json text ms last).2.2 = []) := by
  by_cases hc : (get_content json).length = 0
  · have hnil : get_content json = [] := List.length_eq_zero.mp hc
    unfold update_message_every_second
    rw [if_pos hc]
    exact ⟨fun h => absurd rfl h, fun _ => rfl, fun _ => rfl⟩
  · have hne : get_content json ≠ [] := fun h => hc (by rw [h]; rfl)
    have happ : text ++ get_content json ≠ text := by
      intro heq
      have hlen := congrArg List.length heq
      rw [List.length_append] at hlen
      exact hc (by omega)
    unfold update_message_every_second
    rw [if_neg hc]
    by_cases hms : 1000 < ms
    · rw [if_pos hms]
      refine ⟨fun _ => ⟨hne, happ, le_of_lt hms⟩, fun h => absurd h hne, fun h => ?_⟩
      omega
    · rw [if_neg hms]
      exact ⟨fun h => absurd rfl h, fun h => absurd h hne, fun _ => rfl⟩

/-- Witness for C7: a chunk arriving 500 ms after the last edit issues no
edit even though it carries content. -/
theorem c7_throttled_emission_witness :
    (update_message_every_second jsonHello (asciiBytes "t") 500 []).2.2 = [] :=
  (c7_throttled_emission jsonHello (asciiBytes "t") 500 []).2.2 (by decide)

/-- C8.  replyRequired holds exactly when the message type is the standard
"message" type, the subtype is absent or exactly file_share, and the sender
is not the bot; in particular it is false for every message the bot itself
sent. -/
theorem c8_reply_required (m : SlackMessage) (botId : List Char) :
    (reply_required m botId = true ↔
      (m.type_name = strL "message" ∧
       (m.subtype = none ∨ m.subtype = some (strL "file_share")) ∧
       m.user ≠ botId)) ∧
    (is_from m botId = true → reply_required m botId = false) := by
  constructor
  · unfold reply_required is_from
    simp [Option.isNone_iff_eq_none, and_assoc]
  · intro h
    unfold reply_required
    rw [h]
    simp

/-- Witness for C8: a message sent by the bot is never replied to. -/
theorem c8_reply_required_witness :
    is_from msgFromBot (strL "BOT") = true ∧
    reply_required msgFromBot (strL "BOT") = false :=
  ⟨by decide, (c8_reply_required msgFromBot (strL "BOT")).2 (by decide)⟩

/-- C9.  The past-directive is recognized only at the start of the raw,
unstripped text: whenever the text does not begin with the literal
characters past, get_limit ignores any embedded directive and returns
default + 1 — in particular for channel messages that lead with a mention
token, even though pure_text strips the mention before stripping the
directive. -/
theorem c9_get_limit_raw_text_only (m : SlackMessage) (default max_past : Int)
    (h : (strL "past").isPrefixOf m.text = false) :
    get_limit m default max_past = default + 1 := by
  unfold get_limit pastCapture
  rw [h]
  simp

/-- Witness for C9: the mention-led text carrying past5 still yields
default + 1. -/
theorem c9_get_limit_raw_text_only_witness :
    (strL "past").isPrefixOf msgMention.text = false ∧
    get_limit msgMention 3 10 = 3 + 1 :=
  ⟨by decide, c9_get_limit_raw_text_only msgMention 3 10 (by decide)⟩

/-- C4.  For a non-direct-message trigger inside a thread with limit at
least 2: a mention addressed to someone other than the bot resolves to the
empty context set with no fetch call issued; otherwise the resolver fetches
up to limit replies of the thread and returns the fetched set exactly when
the trigger mentions the bot or some fetched message was sent by the bot,
and the empty set otherwise. -/
theorem c4_fetch_contexts_thread (m : SlackMessage) (botId ch tts : List Char)
    (default max_past : Int)
    (getReplies : List Char → Int → List SlackMessage)
    (getHistory : Int → List SlackMessage)
    (hch : m.channel = some ch) (hdm : is_direct_message m = false)
    (hts : m.thread_ts = some tts)
    (hlim : 2 ≤ get_limit m default max_past) :
    (is_mention_to_other m botId = true →
      fetch_contexts m botId default max_past getReplies getHistory = some ([], [])) ∧
    (is_mention_to_other m botId = false →
      fetch_contexts m botId default max_past getReplies getHistory =
        some ((if (is_mention_to m botId ||
                   (getReplies tts (get_limit m default max_past)).any
                     (fun r => is_from r botId)) = true then
                 getReplies tts (get_limit m default max_past) else []),
              [FetchCall.replies tts (get_limit m default max_past)])) := by
  have hit : is_in_thread m = true := by unfold is_in_thread; rw [hts]; rfl
  have hlt : ¬(get_limit m default max_past < 2) := by omega
  have hdm' : ¬(is_direct_message m = true) := by rw [hdm]; exact Bool.false_ne_true
  have hmix : ¬((!is_in_thread m && is_mention_to m botId) = true) := by
    simp [hit]
  unfold fetch_contexts
  rw [hch]
  simp only []
  rw [hts]
  simp only [Option.getD_some]
  rw [if_neg hlt, if_neg hdm', if_neg hmix, if_pos hit]
  constructor
  · intro ho
    rw [if_pos ho]
  · intro ho
    have ho' : ¬(is_mention_to_other m botId = true) := by
      rw [ho]; exact Bool.false_ne_true
    rw [if_neg ho']
    by_cases hcond : (is_mention_to m botId ||
        (getReplies tts (get_limit m default max_past)).any
          (fun r => is_from r botId)) = true
    · rw [if_pos hcond, if_pos hcond]
    · rw [if_neg hcond, if_neg hcond]

/-- Witness for C4: a thread reply mentioning a different user resolves to
the empty set with no fetch call. -/
theorem c4_fetch_contexts_thread_witness :
    is_mention_to_other msgThreadOther (strL "BOT") = true ∧
    fetch_contexts msgThreadOther (strL "BOT") 5 10 (fun _ _ => []) (fun _ => []) =
      some ([], []) :=
  ⟨by decide,
   (c4_fetch_contexts_thread msgThreadOther (strL "BOT") (strL "C1")
      (strL "1700000000.000500") 5 10 (fun _ _ => []) (fun _ => [])
      (by decide) (by decide) (by decide) (by decide)).1 (by decide)⟩

theorem uniDigit_not_gt (c : Char) (h : isUniDigit c = true) : (c == '>') = false := by
  cases hbeq : c == '>'
  · rfl
  · exfalso
    have hc : c = '>' := by
      have := hbeq
      rwa [beq_iff_eq] at this
    subst hc
    exact absurd h (by decide)

theorem uniDigit_not_ws (c : Char) (h : isUniDigit c = true) : isWsC c = false := by
  cases hw : isWsC c
  · rfl
  · exfalso
    obtain ⟨r, hrmem, hrc⟩ := List.any_eq_true.mp h
    obtain ⟨w, hwmem, hwc⟩ := List.any_eq_true.mp hw
    have hw_eq : c.toNat = w := by rwa [beq_iff_eq] at hwc
    rw [Bool.and_eq_true] at hrc
    have hr1 : r.1 ≤ c.toNat := by have := hrc.1; rwa [decide_eq_true_eq] at this
    have hr2 : c.toNat ≤ r.2 := by have := hrc.2; rwa [decide_eq_true_eq] at this
    have hdisj : ∀ w ∈ wsCodes, ∀ r ∈ ndRanges, ¬(r.1 ≤ w ∧ w ≤ r.2) := by decide
    exact hdisj w hwmem r hrmem ⟨hw_eq ▸ hr1, hw_eq ▸ hr2⟩

theorem hasGtSp_no_window (l : List Char) (h : hasGtSp l = false) :
    ∀ i, (l.drop i).take 2 ≠ ['>', ' '] := by
  induction l with
  | nil =>
    intro i heq
    simp at heq
  | cons c t ih =>
    have h' : (c == '>' && headIsSp t) = false ∧ hasGtSp t = false := by
      unfold hasGtSp at h
      exact ⟨(Bool.or_eq_false_iff.mp h).1, (Bool.or_eq_false_iff.mp h).2⟩
    intro i
    cases i with
    | zero =>
      intro heq
      cases t with
      | nil => simp at heq
      | cons c2 t2 =>
        simp only [List.drop_zero, List.take_cons] at heq
        have hc : c = '>' := by
          have := List.cons_eq_cons.mp heq
          exact this.1
        have hc2 : c2 = ' ' := by
          have h2 := (List.cons_eq_cons.mp heq).2
          have := List.cons_eq_cons.mp h2
          exact this.1
        subst hc hc2
        have hcontra := h'.1
        have hval : (('>' : Char) == '>' && headIsSp (' ' :: t2)) = true := rfl
        rw [hval] at hcontra
        exact Bool.noConfusion hcontra
    | succ i' =>
      rw [List.drop_succ_cons]
      exact ih h'.2 i'

theorem hasGtSp_append_of_no_gt (a b : List Char)
    (ha : ∀ c ∈ a, (c == '>') = false) (hb : hasGtSp b = false) :
    hasGtSp (a ++ b) = false := by
  induction a with
  | nil => exact hb
  | cons c a' ih =>
    have hc : (c == '>') = false := ha c (List.mem_cons_self c a')
    have ih' := ih (fun x hx => ha x (List.mem_cons_of_mem c hx))
    show hasGtSp (c :: (a' ++ b)) = false
    unfold hasGtSp
    rw [hc, ih']
    rfl

theorem trimRight_append_nonws (a b : List Char) (ha : ∀ c ∈ a, isWsC c = false) :
    trimRight (a ++ b) = a ++ trimRight b := by
  unfold trimRight
  rw [List.reverse_append, List.dropWhile_append]
  by_cases hb : (b.reverse.dropWhile isWsC).isEmpty = true
  · rw [if_pos hb]
    have hrev : a.reverse.dropWhile isWsC = a.reverse := by
      cases harev : a.reverse with
      | nil => rfl
      | cons c t =>
        apply List.dropWhile_cons_of_neg
        have hmem : c ∈ a := by
          rw [← List.mem_reverse, harev]
          exact List.mem_cons_self c t
        simp [ha c hmem]
    rw [hrev, List.reverse_reverse]
    have hnil : (b.reverse.dropWhile isWsC).reverse = [] := by
      rw [List.isEmpty_iff.mp hb]
      rfl
    rw [hnil, List.append_nil]
  · rw [if_neg hb, List.reverse_append, List.reverse_reverse]

theorem trimRight_prefix (l : List Char) : trimRight l <+: l := by
  unfold trimRight
  obtain ⟨t, ht⟩ := List.dropWhile_suffix (l := l.reverse) isWsC
  refine ⟨t.reverse, ?_⟩
  rw [← List.reverse_append, ht, List.reverse_reverse]

theorem findDown_eq (R : List Char) (k0 : Nat) (h1 : 1 ≤ k0)
    (hok : mentionOkAt R k0 = true)
    (habove : ∀ k, k0 < k → mentionOkAt R k = false) :
    ∀ n, k0 ≤ n → findDown R n = some k0 := by
  intro n
  induction n with
  | zero => intro h; omega
  | succ n' ih =>
    intro hk
    by_cases he : k0 = n' + 1
    · subst he
      unfold findDown
      rw [if_pos hok]
    · have hko : k0 ≤ n' := by omega
      have hab : mentionOkAt R (n' + 1) = false := habove (n' + 1) (by omega)
      unfold findDown
      rw [hab]
      simp only [Bool.false_eq_true, if_false]
      exact ih hko

/-- C3, counterexample to the claim as stated.  The text is a mention
marker, the directive past1, and the remainder x followed by "> tail"; the
greedy mention regex extends its match through the remainder's "> " window,
so pure_text returns tail instead of preserving the remainder verbatim. -/
theorem c3_counterexample :
    msgC3.text = '<' :: (strL "@U" ++ '>' :: ' ' :: (strL "past" ++ strL "1" ++ strL "x> tail")) ∧
    pure_text msgC3 ≠ strL "x> tail" ∧
    pure_text msgC3 = strL "tail" := by
  refine ⟨by decide, by decide, by decide⟩

/-- C3, amended.  For a text made of a mention marker (nonempty,
newline-free bracketed token followed by one space), a past-digits
directive (Unicode decimal digits, the class the regex \d matches), and a
remainder, pure_text strips exactly the marker and the directive and
returns the remainder with its trailing Unicode whitespace trimmed —
provided the remainder does not itself contain the two-character window
"> " (which the greedy mention regex would extend its match to) and does
not begin with a Unicode decimal digit (which the greedy directive capture
would consume). -/
theorem c3_pure_text_strip (m : SlackMessage) (mid ds rest : List Char)
    (htext : m.text = '<' :: (mid ++ '>' :: ' ' :: (strL "past" ++ ds ++ rest)))
    (hmid1 : mid ≠ []) (hmid2 : '\n' ∉ mid)
    (hds1 : ds ≠ []) (hds2 : ∀ c ∈ ds, isUniDigit c = true)
    (hrest : hasGtSp rest = false)
    (hhd : headDigit rest = false) :
    pure_text m = trimRight rest := by
  have hT_gt : hasGtSp (strL "past" ++ ds ++ rest) = false := by
    apply hasGtSp_append_of_no_gt
    · intro c hc
      rcases List.mem_append.mp hc with h1 | h2
      · have hall : ∀ c ∈ strL "past", (c == '>') = false := by decide
        exact hall c h1
      · exact uniDigit_not_gt c (hds2 c h2)
    · exact hrest
  have hok : mentionOkAt (mid ++ '>' :: ' ' :: (strL "past" ++ ds ++ rest)) mid.length
      = true := by
    unfold mentionOkAt
    rw [List.take_left, List.drop_left, Bool.and_eq_true]
    constructor
    · rw [List.all_eq_true]
      intro c hc
      have hne : c ≠ '\n' := fun he => hmid2 (he ▸ hc)
      simp [hne]
    · rfl
  have habove : ∀ k, mid.length < k →
      mentionOkAt (mid ++ '>' :: ' ' :: (strL "past" ++ ds ++ rest)) k = false := by
    intro k hk
    unfold mentionOkAt
    have hsec : (((mid ++ '>' :: ' ' :: (strL "past" ++ ds ++ rest)).drop k).take 2 ==
        ['>', ' ']) = false := by
      obtain ⟨j, hj, hj1⟩ : ∃ j, k = mid.length + j ∧ 1 ≤ j :=
        ⟨k - mid.length, by omega, by omega⟩
      subst hj
      rw [List.drop_append]
      by_cases hj2 : j = 1
      · subst hj2
        rfl
      · rw [show j = (j - 2) + 1 + 1 by omega, List.drop_succ_cons, List.drop_succ_cons]
        exact beq_eq_false_iff_ne.mpr
          (hasGtSp_no_window (strL "past" ++ ds ++ rest) hT_gt (j - 2))
    rw [hsec, Bool.and_false]
  have hfind : findDown (mid ++ '>' :: ' ' :: (strL "past" ++ ds ++ rest))
      (mid ++ '>' :: ' ' :: (strL "past" ++ ds ++ rest)).length = some mid.length := by
    apply findDown_eq _ _ (List.length_pos.mpr hmid1) hok habove
    simp [List.length_append]
  have hmention : mention_replace m.text = strL "past" ++ ds ++ rest := by
    rw [htext]
    have hstep : mention_replace ('<' :: (mid ++ '>' :: ' ' :: (strL "past" ++ ds ++ rest))) =
        (match findDown (mid ++ '>' :: ' ' :: (strL "past" ++ ds ++ rest))
            (mid ++ '>' :: ' ' :: (strL "past" ++ ds ++ rest)).length with
         | some k => (mid ++ '>' :: ' ' :: (strL "past" ++ ds ++ rest)).drop (k + 2)
         | none => '<' :: (mid ++ '>' :: ' ' :: (strL "past" ++ ds ++ rest))) := rfl
    rw [hstep, hfind]
    show (mid ++ '>' :: ' ' :: (strL "past" ++ ds ++ rest)).drop (mid.length + 2) = _
    rw [List.drop_append]
    rfl
  have ho1 : o1_replace (strL "past" ++ ds ++ rest) = strL "past" ++ ds ++ rest := by
    have hpre : (strL "o1").isPrefixOf (strL "past" ++ ds ++ rest) = false := rfl
    unfold o1_replace
    simp only [hpre]
    simp
  have htrim : trimChars (strL "past" ++ ds ++ rest) =
      strL "past" ++ ds ++ trimRight rest := by
    unfold trimChars
    show trimRight (strL "past" ++ ds ++ rest) = strL "past" ++ ds ++ trimRight rest
    apply trimRight_append_nonws
    intro c hc
    rcases List.mem_append.mp hc with h1 | h2
    · have hall : ∀ c ∈ strL "past", isWsC c = false := by decide
      exact hall c h1
    · exact uniDigit_not_ws c (hds2 c h2)
  have htw : (ds ++ trimRight rest).takeWhile isUniDigit = ds := by
    have hds_tw : ds.takeWhile isUniDigit = ds :=
      List.takeWhile_eq_self_iff.mpr hds2
    rw [List.takeWhile_append, hds_tw, if_pos rfl]
    have hR' : (trimRight rest).takeWhile isUniDigit = [] := by
      cases hR : trimRight rest with
      | nil => rfl
      | cons c cs =>
        obtain ⟨u, hu⟩ := trimRight_prefix rest
        rw [hR] at hu
        have hcd : isUniDigit c = false := by
          have hd := hhd
          rw [← hu] at hd
          exact hd
        exact List.takeWhile_cons_of_neg (by simp [hcd])
    rw [hR', List.append_nil]
  have hcap : pastCapture (strL "past" ++ ds ++ trimRight rest) = some ds := by
    have hpre : (strL "past").isPrefixOf (strL "past" ++ ds ++ trimRight rest) = true :=
      List.isPrefixOf_iff_prefix.mpr
        ((List.prefix_append (strL "past") ds).trans
          (List.prefix_append (strL "past" ++ ds) (trimRight rest)))
    have hdrop : (strL "past" ++ ds ++ trimRight rest).drop 4 = ds ++ trimRight rest := rfl
    have hne : ds.isEmpty = false := by
      cases ds with
      | nil => exact absurd rfl hds1
      | cons c cs => rfl
    unfold pastCapture
    simp only [hpre, hdrop, htw, hne, if_true]
    simp
  have hcmd : command_replace (strL "past" ++ ds ++ trimRight rest) = trimRight rest := by
    unfold command_replace
    rw [hcap]
    have hlen : 4 + ds.length = (strL "past" ++ ds).length := by
      rw [List.length_append]
      rfl
    show (strL "past" ++ ds ++ trimRight rest).drop (4 + ds.length) = trimRight rest
    rw [hlen]
    exact List.drop_left _ _
  unfold pure_text
  rw [hmention, ho1, htrim, hcmd]

/-- Witness for C3: the amended theorem at the concrete text
mention, past2, remainder with surrounding spaces. -/
theorem c3_pure_text_strip_witness :
    msgC3W.text =
      '<' :: (strL "@U123" ++ '>' :: ' ' :: (strL "past" ++ strL "2" ++ strL " hello ")) ∧
    pure_text msgC3W = trimRight (strL " hello ") ∧
    trimRight (strL " hello ") = strL " hello" :=
  ⟨by decide,
   c3_pure_text_strip msgC3W (strL "@U123") (strL "2") (strL " hello ")
     (by decide) (by decide) (by decide) (by decide) (by decide) (by decide) (by decide),
   by decide⟩

end CatGpt
